import Mathlib

/-!
Verification development for the Smart-Meal-Planner client
(`src/app/planner/page.tsx`, `src/app/meal-plan/page.tsx`,
`src/app/calorie-calculator/page.tsx`).

Strings are embedded as lists of characters (`Str`); JavaScript string
operations (`trim`, `toLowerCase`, `split(",")`) are embedded as the
corresponding list functions.  JavaScript numbers are embedded as `ℚ`;
`Math.round` is `round` (round half towards `+∞`, as in ECMAScript), and
`Number(x.toFixed(1))` is `round1` (round to one decimal, ties towards `+∞`,
as specified for `toFixed`).  The backend engine is not part of the
repository's sources; where a claim depends on it, the relevant part is
modelled from the specification and marked as such in its doc comment.
-/

namespace SMP

/-- Character strings, modelled as lists of characters. -/
abbrev Str := List Char

/-- Whitespace test used by the embedding of JavaScript `trim`. -/
def isWs (c : Char) : Bool :=
  c == ' ' || c == '\t' || c == '\n' || c == '\r'

/-- Strip trailing characters satisfying `isWs` (structural version of
reverse-dropWhile-reverse). -/
def trimR : Str → Str
  | [] => []
  | c :: rest =>
    match trimR rest with
    | [] => if isWs c then [] else [c]
    | r => c :: r

/-- Embedding of JavaScript `String.prototype.trim`: strip leading and
trailing whitespace. -/
def trim (s : Str) : Str := trimR (s.dropWhile isWs)

/-- Embedding of JavaScript `String.prototype.toLowerCase` (ASCII case). -/
def toLower (s : Str) : Str := s.map Char.toLower

/-- Embedding of JavaScript `String.prototype.split(",")`: `""` yields
`[""]`, separators delimit possibly-empty fields. -/
def splitComma : Str → List Str
  | [] => [[]]
  | c :: rest =>
    if c = ',' then [] :: splitComma rest
    else
      match splitComma rest with
      | [] => [[c]]
      | t :: ts => (c :: t) :: ts

/-- Allergy normalization used by both `handleGenerate` and `handleReplace` in
`planner/page.tsx`: `form.allergies.split(",").map(a => a.trim()).filter(Boolean)`. -/
def normalizeAllergies (s : Str) : List Str :=
  ((splitComma s).map trim).filter (fun t => !t.isEmpty)

/-! ### Calorie calculator (`calorie-calculator/page.tsx`) -/

/-- Sex selector of the calorie calculator. -/
inductive Sex where
  | female
  | male
deriving DecidableEq

/-- Goal selector of the calorie calculator. -/
inductive CGoal where
  | maintain
  | deficit
  | surplus
deriving DecidableEq

/-- Activity selector of the calorie calculator. -/
inductive Activity where
  | sedentary
  | light
  | moderate
  | very
  | extra
deriving DecidableEq

/-- `activityMultiplier` from `calorie-calculator/page.tsx`. -/
def activityMultiplier : Activity → ℚ
  | .sedentary => 1.2
  | .light => 1.375
  | .moderate => 1.55
  | .very => 1.725
  | .extra => 1.9

/-- `bmr` from `calorie-calculator/page.tsx`:
`base = 10*w + 6.25*h - 5*age`, then `+5` for male, `-161` for female. -/
def bmr (sex : Sex) (w h age : ℚ) : ℚ :=
  match sex with
  | .male => 10 * w + 6.25 * h - 5 * age + 5
  | .female => 10 * w + 6.25 * h - 5 * age - 161

/-- The goal adjustment of the `result` memo: `tdee * 0.85` under deficit,
`tdee * 1.1` under surplus, `tdee` unchanged under maintain. -/
def goalCalories (goal : CGoal) (tdee : ℚ) : ℚ :=
  match goal with
  | .deficit => tdee * 0.85
  | .surplus => tdee * 1.1
  | .maintain => tdee

/-- The `result` memo of `CalorieCalculator`: displayed
`(bmr, tdee, recommended)`, each `Math.round`ed; the goal factor is applied
to the unrounded TDEE. -/
def calcResult (sex : Sex) (age h w : ℚ) (act : Activity) (goal : CGoal) :
    ℤ × ℤ × ℤ :=
  (round (bmr sex w h age),
    round (bmr sex w h age * activityMultiplier act),
    round (goalCalories goal (bmr sex w h age * activityMultiplier act)))

/-! ### Planner page data model (`planner/page.tsx`) -/

/-- Macro totals object `{calories, protein_g, carbs_g, fat_g}`. -/
structure Totals where
  calories : ℚ
  protein_g : ℚ
  carbs_g : ℚ
  fat_g : ℚ
deriving DecidableEq

/-- One meal of a generated plan, as rendered and updated by
`planner/page.tsx` (fields the page reads). -/
structure Meal where
  slot : Option Str
  meal_type : Str
  recipe_id : ℤ
  name : Str
  calories : ℚ
  protein_g : ℚ
  carbs_g : ℚ
  fat_g : ℚ
  ingredients : List Str
  target_calories : ℚ
deriving DecidableEq

/-- The slot identifier the page uses for a meal: `mm.slot ?? mm.meal_type`. -/
def slotKey (m : Meal) : Str := m.slot.getD m.meal_type

/-- One shopping-list item `{ingredient, count}`. -/
structure Item where
  ingredient : Str
  count : ℕ
deriving DecidableEq

/-- The shopping list object `{total_unique, items}`. -/
structure ShoppingList where
  total_unique : ℕ
  items : List Item
deriving DecidableEq

/-- One day of the plan: `{day, meals, totals}`. -/
structure Day where
  day : ℤ
  meals : List Meal
  totals : Totals
deriving DecidableEq

/-- The plan held in client state: `{days, overall_totals, shopping_list}`. -/
structure Plan where
  days : List Day
  overall_totals : Totals
  shopping_list : ShoppingList
deriving DecidableEq

/-- Embedding of `Number(x.toFixed(1))`: round to one decimal place,
ties towards `+∞` (ECMAScript `toFixed` picks the larger candidate on ties). -/
def round1 (x : ℚ) : ℚ := (round (10 * x) : ℤ) / 10

/-- Apply `round1` to each macro field, as the `totals:` object literal does. -/
def round1T (t : Totals) : Totals :=
  ⟨round1 t.calories, round1 t.protein_g, round1 t.carbs_g, round1 t.fat_g⟩

/-- The `reduce` in `handleReplace` that recomputes day totals from the
updated meal list. -/
def sumMeals (ms : List Meal) : Totals :=
  ms.foldl
    (fun acc m =>
      ⟨acc.calories + m.calories, acc.protein_g + m.protein_g,
        acc.carbs_g + m.carbs_g, acc.fat_g + m.fat_g⟩)
    ⟨0, 0, 0, 0⟩

/-- The `reduce` in `handleReplace` that recomputes overall totals from the
day totals. -/
def sumDayTotals (ds : List Day) : Totals :=
  ds.foldl
    (fun acc d =>
      ⟨acc.calories + d.totals.calories, acc.protein_g + d.totals.protein_g,
        acc.carbs_g + d.totals.carbs_g, acc.fat_g + d.totals.fat_g⟩)
    ⟨0, 0, 0, 0⟩

/-! ### Shopping list recomputation (`handleReplace`, `planner/page.tsx`) -/

/-- Tokens contributed by one meal: each ingredient string trimmed then
lower-cased, empty tokens discarded (`const k = String(ing).trim().toLowerCase();
if (!k) continue;`). -/
def mealTokens (m : Meal) : List Str :=
  (m.ingredients.map (fun i => toLower (trim i))).filter (fun t => !t.isEmpty)

/-- Tokens of one day, in meal order. -/
def dayTokens (d : Day) : List Str := d.meals.flatMap mealTokens

/-- Tokens of the whole plan, in day/meal/ingredient traversal order. -/
def planTokens (ds : List Day) : List Str := ds.flatMap dayTokens

/-- Insert one token into the counter, embedding the JavaScript `Map`
update `ctr.set(k, (ctr.get(k) ?? 0) + 1)`: an existing key keeps its
position, a new key is appended (insertion order). -/
def bump : List Item → Str → List Item
  | [], k => [⟨k, 1⟩]
  | it :: rest, k =>
    if it.ingredient = k then ⟨k, it.count + 1⟩ :: rest else it :: bump rest k

/-- Occurrence counter over a token list, in `Map` insertion order. -/
def counter (ts : List Str) : List Item := ts.foldl bump []

/-- Insert into a descending-by-count list; an element is placed before the
first element whose count is not larger, so a later-inserted element never
jumps over an equal-count earlier one (stability of the JavaScript sort
with comparator `(a, b) => b[1] - a[1]`). -/
def insertDesc (x : Item) : List Item → List Item
  | [] => [x]
  | y :: ys => if y.count ≤ x.count then x :: y :: ys else y :: insertDesc x ys

/-- Stable sort by descending count, embedding
`Array.from(ctr.entries()).sort((a, b) => b[1] - a[1])`. -/
def sortItems (l : List Item) : List Item := l.foldr insertDesc []

/-- The `shoppingItems` array computed in `handleReplace`. -/
def shoppingItems (ds : List Day) : List Item :=
  sortItems (counter (planTokens ds))

/-- The recomputed shopping list
`{ total_unique: shoppingItems.length, items: shoppingItems }`. -/
def shoppingList (ds : List Day) : ShoppingList :=
  ⟨(shoppingItems ds).length, shoppingItems ds⟩

/-! ### Single-meal replacement (`handleReplace`, `planner/page.tsx`) -/

/-- Update the targeted day: swap in `newMeal` at every meal whose slot key
equals `slot`, then recompute the day totals from the updated meal list. -/
def updateDay (slot : Str) (newMeal : Meal) (d : Day) : Day :=
  let ms := d.meals.map (fun m => if slotKey m = slot then newMeal else m)
  ⟨d.day, ms, round1T (sumMeals ms)⟩

/-- The successful-response state update of `handleReplace`: replace the
meal in the active day, recompute that day's totals, the overall totals and
the shopping list; all other days are mapped to themselves. -/
def replacePlan (p : Plan) (activeDay : ℤ) (slot : Str) (newMeal : Meal) :
    Plan :=
  let nds := p.days.map
    (fun d => if d.day = activeDay then updateDay slot newMeal d else d)
  ⟨nds, round1T (sumDayTotals nds), shoppingList nds⟩

/-- The string `"ok"`. -/
def okStr : Str := ['o', 'k']

/-- Replace-meal response as read by `planner/page.tsx`: HTTP `res.ok`, the
body's `status`, and the optional `meal` and `detail` fields. -/
structure PlannerReplaceResponse where
  httpOk : Bool
  status : Str
  meal : Option Meal
  detail : Option Str
deriving DecidableEq

/-- `handleReplace` as a state transformer on the held plan: on
`res.ok && data.status === "ok"` the new meal is read from `data.meal` and
spliced in; on any failure the handler only sets an error message and the
plan state is untouched. -/
def handleReplace (p : Plan) (activeDay : ℤ) (slot : Str)
    (resp : PlannerReplaceResponse) : Plan :=
  if resp.httpOk = true ∧ resp.status = okStr then
    match resp.meal with
    | some m => replacePlan p activeDay slot m
    | none => p
  else p

/-! ### Meal-plan page data model (`meal-plan/page.tsx`) -/

/-- Ingredient record of the meal-plan page's API types. -/
structure MPIngredient where
  FoodID : ℤ
  FoodDescription : Str
  FoodGroupName : Str
deriving DecidableEq

/-- `MacroTotals` of the meal-plan page. -/
structure MPTotals where
  calories_kcal : ℚ
  protein_g : ℚ
  fat_g : ℚ
  carbs_g : ℚ
deriving DecidableEq

/-- `MealFromAPI` of the meal-plan page (note: no recipe identifier field). -/
structure MPMeal where
  meal_number : ℕ
  recipe_name : Str
  target_calories : ℚ
  ingredients : List MPIngredient
  totals : MPTotals
deriving DecidableEq

/-- `DayFromAPI` of the meal-plan page. -/
structure MPDay where
  day : ℤ
  meals : List MPMeal
  day_totals : MPTotals
deriving DecidableEq

/-- `MealPlanRequest` stored with the plan in session storage. -/
structure MPRequest where
  calories : ℚ
  meals_per_day : ℕ
  days : ℕ
  diet_type : Str
  goal : Str
  allergies : List Str
  exclude_ultra_processed : Bool
  variety : Bool
deriving DecidableEq

/-- The `replacement` object of the meal-plan page's replace response. -/
structure MPReplacement where
  recipe_name : Str
  ingredients : List MPIngredient
  totals : MPTotals
deriving DecidableEq

/-- Replace-meal response as read by `meal-plan/page.tsx`: the page's own
type declares `replacement`; a `meal` field (the shape the planner page and
the specification use) may be present on the wire but is never read. -/
structure MPReplaceResponse where
  httpOk : Bool
  status : Str
  replacement : Option MPReplacement
  meal : Option Meal
  message : Option Str
  detail : Option Str
deriving DecidableEq

/-- The field the meal-plan page reads a successful replacement from:
`if (j.status !== "ok" || !j.replacement) throw ...; const replacement =
j.replacement;` — `none` when the handler throws instead. -/
def mpExtractReplacement (j : MPReplaceResponse) : Option MPReplacement :=
  if j.httpOk = true ∧ j.status = okStr then j.replacement else none

/-- Summation of meal totals in `handleReplaceMeal`'s `reduce` (full
precision, no rounding). -/
def mpSumMeals (ms : List MPMeal) : MPTotals :=
  ms.foldl
    (fun acc m =>
      ⟨acc.calories_kcal + m.totals.calories_kcal,
        acc.protein_g + m.totals.protein_g,
        acc.fat_g + m.totals.fat_g,
        acc.carbs_g + m.totals.carbs_g⟩)
    ⟨0, 0, 0, 0⟩

/-- Summation of day totals in `handleReplaceMeal`'s second `reduce`. -/
def mpSumDays (ds : List MPDay) : MPTotals :=
  ds.foldl
    (fun acc d =>
      ⟨acc.calories_kcal + d.day_totals.calories_kcal,
        acc.protein_g + d.day_totals.protein_g,
        acc.fat_g + d.day_totals.fat_g,
        acc.carbs_g + d.day_totals.carbs_g⟩)
    ⟨0, 0, 0, 0⟩

/-- Merge a replacement into an existing meal, as the spread
`{...m, recipe_name, ingredients, totals}` does. -/
def mpMergeMeal (m : MPMeal) (rep : MPReplacement) : MPMeal :=
  ⟨m.meal_number, rep.recipe_name, m.target_calories, rep.ingredients,
    rep.totals⟩

/-- The successful-response state update of `handleReplaceMeal`: in the
active day, every meal with the targeted `meal_number` takes the
replacement's name/ingredients/totals; day totals and plan totals are
recomputed by summation. -/
def mpReplaceUpdate (plan : List MPDay) (activeDay : ℤ) (mealNumber : ℕ)
    (rep : MPReplacement) : List MPDay × MPTotals :=
  let newPlan := plan.map (fun d =>
    if d.day = activeDay then
      let ms := d.meals.map
        (fun m => if m.meal_number = mealNumber then mpMergeMeal m rep else m)
      ⟨d.day, ms, mpSumMeals ms⟩
    else d)
  (newPlan, mpSumDays newPlan)

/-! ### Request payloads sent by the client -/

/-- The planner page's form state (numeric inputs are arbitrary numbers:
the form imposes no bounds). -/
structure PlannerForm where
  calories : ℚ
  meals_per_day : ℤ
  days : ℤ
  diet_type : Str
  goal : Str
  allergies : Str
  exclude_ultra_processed : Bool
  variety : Bool
deriving DecidableEq

/-- The generate-plan request body built in `handleGenerate`. -/
structure GenerateRequest where
  calories : ℚ
  meals_per_day : ℤ
  days : ℤ
  diet_type : Str
  goal : Str
  allergies : List Str
  exclude_ultra_processed : Bool
  variety : Bool
deriving DecidableEq

/-- `handleGenerate`'s `payload`: the form values are copied unchanged
(no clamping or validation), allergies are normalized. -/
def buildGeneratePayload (f : PlannerForm) : GenerateRequest :=
  ⟨f.calories, f.meals_per_day, f.days, f.diet_type, f.goal,
    normalizeAllergies f.allergies, f.exclude_ultra_processed, f.variety⟩

/-- The replace-meal request body, in the shape of the specification's
replace-meal contract.  Fields a particular page omits from its JSON body
are embedded as `none` (for scalars) or `[]` (for the identifier array):
an absent field carries no data to the server. -/
structure ReplaceRequest where
  calories : ℚ
  meals_per_day : ℤ
  diet_type : Str
  goal : Str
  allergies : List Str
  exclude_ultra_processed : Bool
  variety : Option Bool
  day : Option ℤ
  slot : Option Str
  target_meal_calories : ℚ
  exclude_recipe_ids : List ℤ
deriving DecidableEq

/-- The planner page's replace payload: `handleReplace`'s `payload` object,
with `slot`, `target` and `excludeIds` as passed by `MealCard`'s
`onReplace(meal.slot ?? meal.meal_type, Number(meal.target_calories),
[Number(meal.recipe_id)])`. -/
def plannerReplacePayload (f : PlannerForm) (activeDay : ℤ) (m : Meal) :
    ReplaceRequest :=
  ⟨f.calories, f.meals_per_day, f.diet_type, f.goal,
    normalizeAllergies f.allergies, f.exclude_ultra_processed,
    some f.variety, some activeDay, some (slotKey m), m.target_calories,
    [m.recipe_id]⟩

/-- The target calories computed by `handleReplaceMeal`:
`day?.meals.find(m => m.meal_number === meal_number)?.target_calories ??
req.calories / req.meals_per_day`. -/
def mpTarget (day : Option MPDay) (mealNumber : ℕ) (req : MPRequest) : ℚ :=
  match day with
  | some d =>
    match d.meals.find? (fun m => m.meal_number == mealNumber) with
    | some m => m.target_calories
    | none => req.calories / (req.meals_per_day : ℚ)
  | none => req.calories / (req.meals_per_day : ℚ)

/-- The meal-plan page's replace payload (`handleReplaceMeal`, lines
138–146): it sends only `calories`, `meals_per_day`, `diet_type`, `goal`,
`allergies`, `exclude_ultra_processed` and `target_meal_calories`; the
`variety`, `day`, `slot` and `exclude_recipe_ids` fields of the contract
are absent from the body. -/
def mealPlanReplacePayload (req : MPRequest) (target : ℚ) : ReplaceRequest :=
  ⟨req.calories, (req.meals_per_day : ℤ), req.diet_type, req.goal,
    req.allergies, req.exclude_ultra_processed, none, none, none, target, []⟩

/-! ### Spec-modelled backend fragments

The decision engine (corpus, filter, scorer, composer, validator) is not in
the repository's sources; the parts below are modelled from the
specification, each marked in its doc comment. -/

/-- Substring test on character lists (JavaScript `String.includes`). -/
def isSubstr (n h : Str) : Bool :=
  match h with
  | [] => n.isEmpty
  | _ :: t => n.isPrefixOf h || isSubstr n t

/-- The string `"vegetarian"`. -/
def vegStr : Str := ['v', 'e', 'g', 'e', 't', 'a', 'r', 'i', 'a', 'n']

/-- The string `"gain_muscle"`. -/
def gainStr : Str :=
  ['g', 'a', 'i', 'n', '_', 'm', 'u', 's', 'c', 'l', 'e']

/-- The string `"lose_weight"`. -/
def loseStr : Str :=
  ['l', 'o', 's', 'e', '_', 'w', 'e', 'i', 'g', 'h', 't']

/-- Modelled from the spec: a corpus `Recipe` (§3) — identifier, dietary
classification, processing-level flag, free-text ingredient descriptions
and a per-serving macro profile.  The corpus itself is not in `src/`. -/
structure Recipe where
  id : ℤ
  name : Str
  vegetarian : Bool
  ultraProcessed : Bool
  ingredients : List Str
  calories : ℚ
  protein_g : ℚ
  carbs_g : ℚ
  fat_g : ℚ
  sugar_g : ℚ
  sodium_mg : ℚ
  sat_fat_g : ℚ
deriving DecidableEq

/-- Modelled from the spec: allergy rule of the Constraint Filter (§4.2,
rule 3) — any allergy string, case-insensitively and trimmed, matching any
ingredient description substring rejects the recipe. -/
def allergyHits (allergies : List Str) (r : Recipe) : Bool :=
  allergies.any (fun a =>
    r.ingredients.any (fun ing => isSubstr (toLower (trim a)) (toLower ing)))

/-- Modelled from the spec: the Constraint Filter (§4.2), rules applied in
order, first rejection wins: diet mismatch, ultra-processed exclusion,
allergy substring match, identifier in the caller-supplied exclusion set. -/
def filterAccept (rq : ReplaceRequest) (r : Recipe) : Bool :=
  if rq.diet_type = vegStr ∧ r.vegetarian = false then false
  else if rq.exclude_ultra_processed = true ∧ r.ultraProcessed = true then
    false
  else if allergyHits rq.allergies r then false
  else if r.id ∈ rq.exclude_recipe_ids then false
  else true

/-- Modelled from the spec: goal-weighted term of the Candidate Scorer
(§4.3) — `gain_muscle` rewards protein, `lose_weight` penalises sugar and
saturated fat, `maintain` is neutral. -/
def goalTerm (goal : Str) (r : Recipe) : ℚ :=
  if goal = gainStr then -r.protein_g
  else if goal = loseStr then r.sugar_g + r.sat_fat_g
  else 0

/-- Modelled from the spec: the Candidate Scorer (§4.3) for a replacement
call — absolute calorie delta from the slot target plus the goal term
(the replacement session starts with empty variety counters, so the
variety penalty is zero). -/
def score (rq : ReplaceRequest) (r : Recipe) : ℚ :=
  |r.calories - rq.target_meal_calories| + goalTerm rq.goal r

/-- Modelled from the spec: strict preference order of selection — lower
score first, ties broken by ascending recipe identifier (§4.3). -/
def better (rq : ReplaceRequest) (a b : Recipe) : Prop :=
  score rq a < score rq b ∨ (score rq a = score rq b ∧ a.id < b.id)

instance (rq : ReplaceRequest) (a b : Recipe) : Decidable (better rq a b) := by
  unfold better
  infer_instance

/-- Modelled from the spec: select the minimum-score candidate with the
deterministic tie-break (§4.3/§4.4); `none` on an empty candidate list. -/
def selectBest (rq : ReplaceRequest) : List Recipe → Option Recipe
  | [] => none
  | r :: rs =>
    match selectBest rq rs with
    | none => some r
    | some b => if better rq r b then some r else some b

/-- Modelled from the spec: the Replacement Engine (§4.6) — Filter with the
request's constraint set plus the caller-supplied exclusions, then select
the best candidate; `none` when no candidate survives
(`ReplacementExhausted`). -/
def replaceMealModel (corpus : List Recipe) (rq : ReplaceRequest) :
    Option Recipe :=
  selectBest rq (corpus.filter (filterAccept rq))

/-- The strings `"days"`, `"meals_per_day"`, `"calories"` used as offending
field names. -/
def daysField : Str := ['d', 'a', 'y', 's']

/-- Field name `meals_per_day`. -/
def mealsField : Str :=
  ['m', 'e', 'a', 'l', 's', '_', 'p', 'e', 'r', '_', 'd', 'a', 'y']

/-- Field name `calories`. -/
def caloriesField : Str :=
  ['c', 'a', 'l', 'o', 'r', 'i', 'e', 's']

/-- Modelled from the spec: result of request validation (§7) — either
acceptance or a `ValidationError` naming the offending field. -/
inductive ValidationResult where
  | ok
  | validationError (field : Str)
deriving DecidableEq

/-- Modelled from the spec: `ValidationError` checks (§3, §7) — days
bounded 1–14, meals-per-day bounded 1–6, a positive calorie target;
performed on the request alone, before any corpus access. -/
def validatePlanRequest (rq : GenerateRequest) : ValidationResult :=
  if ¬(1 ≤ rq.days ∧ rq.days ≤ 14) then .validationError daysField
  else if ¬(1 ≤ rq.meals_per_day ∧ rq.meals_per_day ≤ 6) then
    .validationError mealsField
  else if ¬(0 < rq.calories) then .validationError caloriesField
  else .ok

/-- Modelled from the spec: slot target-calorie shares (§4.4) — an even
integer split of the daily total across `m` slots, with the residual from
integer rounding absorbed into the last slot of the day. -/
def slotTargets (calories : ℤ) (m : ℕ) : List ℤ :=
  if m = 0 then []
  else
    (List.replicate (m - 1) (calories / (m : ℤ))) ++
      [calories - ((m : ℤ) - 1) * (calories / (m : ℤ))]

/-! ### Helper lemmas: trimming -/

/-- A head surviving `dropWhile p` does not satisfy `p`. -/
lemma head?_dropWhile_false {α : Type} (p : α → Bool) :
    ∀ (l : List α) (c : α), (l.dropWhile p).head? = some c → p c = false := by
  intro l
  induction l with
  | nil => intro c hc; simp [List.dropWhile] at hc
  | cons x xs ih =>
    intro c hc
    by_cases hx : p x
    · rw [List.dropWhile_cons, if_pos hx] at hc
      exact ih c hc
    · rw [List.dropWhile_cons, if_neg hx] at hc
      simp at hc
      subst hc
      simpa using hx

/-- `trimR` only removes characters from the end: a surviving head was the
original head. -/
lemma head?_trimR (l : Str) (c : Char) :
    (trimR l).head? = some c → l.head? = some c := by
  induction l with
  | nil => simp [trimR]
  | cons x xs ih =>
    intro hc
    cases hxs : trimR xs with
    | nil =>
      rw [trimR, hxs] at hc
      by_cases hx : isWs x
      · simp [hx] at hc
      · simp [hx] at hc
        simp [hc]
    | cons y ys =>
      rw [trimR, hxs] at hc
      simp at hc ⊢
      exact hc

/-- The last character of a `trimR` result is not whitespace. -/
lemma getLast?_trimR_not_ws :
    ∀ (l : Str) (c : Char), (trimR l).getLast? = some c → isWs c = false := by
  intro l
  induction l with
  | nil => simp [trimR]
  | cons x xs ih =>
    intro c hc
    cases hxs : trimR xs with
    | nil =>
      rw [trimR, hxs] at hc
      by_cases hx : isWs x
      · simp [hx] at hc
      · simp [hx] at hc
        subst hc
        simpa using hx
    | cons y ys =>
      rw [trimR, hxs] at hc
      rw [List.getLast?_cons_cons] at hc
      exact ih c (hxs ▸ hc)

/-- The first character of a trimmed string is not whitespace. -/
lemma trim_head_not_ws (s : Str) (c : Char) :
    (trim s).head? = some c → isWs c = false :=
  fun h => head?_dropWhile_false isWs s c (head?_trimR _ c h)

/-- The last character of a trimmed string is not whitespace. -/
lemma trim_getLast_not_ws (s : Str) (c : Char) :
    (trim s).getLast? = some c → isWs c = false :=
  getLast?_trimR_not_ws _ c

/-! ### Example fixtures used by witnesses -/

/-- A concrete meal (breakfast, recipe 7). -/
def exMeal : Meal :=
  ⟨some ['b', 'f'], ['b', 'f'], 7, ['o', 'a', 't', 's'], 600, 30, 60, 20,
    [['o', 'a', 't', 's'], ['m', 'i', 'l', 'k']], 600⟩

/-- A concrete replacement meal (same slot, recipe 8). -/
def exMeal2 : Meal :=
  ⟨some ['b', 'f'], ['b', 'f'], 8, ['e', 'g', 'g', 's'], 580, 35, 40, 25,
    [['e', 'g', 'g', 's']], 600⟩

/-- A concrete day holding `exMeal`, with totals equal to the meal sums. -/
def exDay : Day := ⟨1, [exMeal], ⟨600, 30, 60, 20⟩⟩

/-- A concrete plan holding `exDay`. -/
def exPlan : Plan :=
  ⟨[exDay], ⟨600, 30, 60, 20⟩,
    ⟨2, [⟨['o', 'a', 't', 's'], 1⟩, ⟨['m', 'i', 'l', 'k'], 1⟩]⟩⟩

/-- A concrete planner form with a raw allergies string `" nuts, dairy "`. -/
def exForm : PlannerForm :=
  ⟨1800, 3, 3, [], [],
    [' ', 'n', 'u', 't', 's', ',', ' ', 'd', 'a', 'i', 'r', 'y', ' '],
    true, true⟩

/-! ### C9 — calorie calculator formula -/

/-- C9: for every sex, age, height and weight, the displayed BMR is
`round(10*w + 6.25*h - 5*age + 5)` (male) or `round(... - 161)` (female),
the activity multiplier is one of `1.2, 1.375, 1.55, 1.725, 1.9`, the
displayed TDEE is the rounded product of the unrounded BMR base and the
multiplier, and the recommended calories are the rounded product with the
goal factor `0.85` (deficit), `1.1` (surplus) or `1` (maintain). -/
theorem c9_calorie_calculator_formula :
    ∀ (sex : Sex) (age h w : ℚ) (act : Activity) (goal : CGoal),
      (calcResult sex age h w act goal).1 =
          round (10 * w + 6.25 * h - 5 * age +
            (match sex with | .male => (5 : ℚ) | .female => -161))
        ∧ activityMultiplier act ∈ [(1.2 : ℚ), 1.375, 1.55, 1.725, 1.9]
        ∧ (calcResult sex age h w act goal).2.1 =
            round ((10 * w + 6.25 * h - 5 * age +
              (match sex with | .male => (5 : ℚ) | .female => -161)) *
                activityMultiplier act)
        ∧ (calcResult sex age h w act goal).2.2 =
            round ((10 * w + 6.25 * h - 5 * age +
              (match sex with | .male => (5 : ℚ) | .female => -161)) *
                activityMultiplier act *
              (match goal with
                | .deficit => (0.85 : ℚ)
                | .surplus => 1.1
                | .maintain => 1)) := by
  intro sex age h w act goal
  refine ⟨?_, ?_, ?_, ?_⟩
  · cases sex <;> simp only [calcResult, bmr] <;>
      first
        | rfl
        | (congr 1; ring)
  · cases act <;> simp [activityMultiplier]
  · cases sex <;> cases act <;>
      simp only [calcResult, bmr, activityMultiplier] <;>
        first
          | rfl
          | (congr 1; ring)
  · cases sex <;> cases act <;> cases goal <;>
      simp only [calcResult, bmr, activityMultiplier, goalCalories] <;>
        first
          | rfl
          | (congr 1; ring)

/-! ### C10 — allergy list normalization -/

/-- C10: both the generate-plan and the planner replace-meal payloads carry
the comma-split, trimmed, nonempty tokens of the allergies text, and no
carried token is empty, starts with whitespace, or ends with whitespace. -/
theorem c10_allergies_normalized :
    ∀ (f : PlannerForm) (a : ℤ) (m : Meal) (t : Str),
      ((buildGeneratePayload f).allergies =
          ((splitComma f.allergies).map trim).filter (fun s => !s.isEmpty)
        ∧ (plannerReplacePayload f a m).allergies =
            ((splitComma f.allergies).map trim).filter (fun s => !s.isEmpty))
        ∧ (t ∈ (buildGeneratePayload f).allergies →
            t ≠ [] ∧ (∀ c, t.head? = some c → isWs c = false)
              ∧ ∀ c, t.getLast? = some c → isWs c = false)
        ∧ (t ∈ (plannerReplacePayload f a m).allergies →
            t ≠ [] ∧ (∀ c, t.head? = some c → isWs c = false)
              ∧ ∀ c, t.getLast? = some c → isWs c = false) := by
  intro f a m t
  have key : t ∈ normalizeAllergies f.allergies →
      t ≠ [] ∧ (∀ c, t.head? = some c → isWs c = false)
        ∧ ∀ c, t.getLast? = some c → isWs c = false := by
    intro ht
    unfold normalizeAllergies at ht
    rw [List.mem_filter] at ht
    obtain ⟨hmap, hne⟩ := ht
    rw [List.mem_map] at hmap
    obtain ⟨s, _, rfl⟩ := hmap
    refine ⟨?_, fun c hc => trim_head_not_ws s c hc,
      fun c hc => trim_getLast_not_ws s c hc⟩
    intro hnil
    rw [hnil] at hne
    simp at hne
  exact ⟨⟨rfl, rfl⟩, fun h => key h, fun h => key h⟩

/-- Witness for C10 at the concrete form `exForm` (allergies text
`" nuts, dairy "`) and the token `"nuts"`. -/
theorem c10_witness :
    (['n', 'u', 't', 's'] : Str) ≠ [] ∧ isWs 'n' = false ∧ isWs 's' = false :=
  ⟨((c10_allergies_normalized exForm 1 exMeal
      ['n', 'u', 't', 's']).2.1 (by decide)).1,
    ((c10_allergies_normalized exForm 1 exMeal
      ['n', 'u', 't', 's']).2.1 (by decide)).2.1 'n' rfl,
    ((c10_allergies_normalized exForm 1 exMeal
      ['n', 'u', 't', 's']).2.1 (by decide)).2.2 's' rfl⟩

/-! ### C8 — slot calorie targets (spec-modelled) -/

/-- C8: for `m ≥ 1` slots, the targets are `m` values, all but the last
equal to the even integer share `cal / m`, the last absorbing the residual
(`cal / m + cal % m`), and the targets sum exactly to the daily total. -/
theorem c8_slot_targets :
    ∀ (cal : ℤ) (m : ℕ), 1 ≤ m →
      (slotTargets cal m).length = m
        ∧ (slotTargets cal m).sum = cal
        ∧ (∀ i, i < m - 1 → (slotTargets cal m)[i]? = some (cal / (m : ℤ)))
        ∧ (slotTargets cal m).getLast? =
            some (cal / (m : ℤ) + cal % (m : ℤ)) := by
  intro cal m hm
  have hm0 : m ≠ 0 := by omega
  have hcast : ((m - 1 : ℕ) : ℤ) = (m : ℤ) - 1 := by
    push_cast [Nat.cast_sub hm]
    ring
  refine ⟨?_, ?_, ?_, ?_⟩
  · simp [slotTargets, hm0]
    omega
  · simp [slotTargets, hm0, List.sum_append, List.sum_replicate, hcast]
  · intro i hi
    rw [slotTargets, if_neg hm0, List.getElem?_append]
    rw [if_pos (by simpa using hi)]
    simp [hi]
  · rw [slotTargets, if_neg hm0, List.getLast?_concat]
    have hdm : (m : ℤ) * (cal / (m : ℤ)) + cal % (m : ℤ) = cal :=
      Int.ediv_add_emod cal (m : ℤ)
    congr 1
    linarith [hdm]

/-- Witness for C8 at `cal = 1800`, `m = 3`. -/
theorem c8_witness :
    (slotTargets 1800 3).sum = 1800 ∧ (slotTargets 1800 3).length = 3 :=
  ⟨(c8_slot_targets 1800 3 (by decide)).2.1,
    (c8_slot_targets 1800 3 (by decide)).1⟩

/-! ### C7 — request validation bounds -/

/-- A concrete form with out-of-range meals-per-day (9) and days (20):
nothing in the client prevents submitting it. -/
def form9 : PlannerForm := ⟨1800, 9, 20, [], [], [], true, true⟩

/-- C7 counterexample: the client submits the form values unchanged, so a
submitted generate-plan request can carry `meals_per_day = 9 ∉ [1,6]` and
`days = 20 ∉ [1,14]` — the claim that every submitted request is in range
is false. -/
theorem c7_counterexample :
    (buildGeneratePayload form9).meals_per_day = 9
      ∧ ¬((buildGeneratePayload form9).meals_per_day ≤ 6)
      ∧ (buildGeneratePayload form9).days = 20
      ∧ ¬((buildGeneratePayload form9).days ≤ 14) := by
  refine ⟨rfl, by decide, rfl, by decide⟩

/-- C7 (amended): the client copies days, meals-per-day and calories from
the form without enforcement; the spec-modelled validator rejects any
out-of-range request with a `ValidationError` naming the offending field
(checked in the order days, meals-per-day, calories) and accepts in-range
requests. -/
theorem c7_validation :
    ∀ (f : PlannerForm) (rq : GenerateRequest),
      (buildGeneratePayload f).days = f.days
        ∧ (buildGeneratePayload f).meals_per_day = f.meals_per_day
        ∧ (buildGeneratePayload f).calories = f.calories
        ∧ (¬(1 ≤ rq.days ∧ rq.days ≤ 14) →
            validatePlanRequest rq = .validationError daysField)
        ∧ ((1 ≤ rq.days ∧ rq.days ≤ 14) →
            ¬(1 ≤ rq.meals_per_day ∧ rq.meals_per_day ≤ 6) →
            validatePlanRequest rq = .validationError mealsField)
        ∧ ((1 ≤ rq.days ∧ rq.days ≤ 14) →
            (1 ≤ rq.meals_per_day ∧ rq.meals_per_day ≤ 6) →
            ¬(0 < rq.calories) →
            validatePlanRequest rq = .validationError caloriesField)
        ∧ ((1 ≤ rq.days ∧ rq.days ≤ 14) →
            (1 ≤ rq.meals_per_day ∧ rq.meals_per_day ≤ 6) →
            (0 < rq.calories) →
            validatePlanRequest rq = .ok) := by
  intro f rq
  refine ⟨rfl, rfl, rfl, ?_, ?_, ?_, ?_⟩
  · intro h1
    simp only [validatePlanRequest]
    rw [if_pos h1]
  · intro h1 h2
    simp only [validatePlanRequest]
    rw [if_neg (by simpa using h1), if_pos h2]
  · intro h1 h2 h3
    simp only [validatePlanRequest]
    rw [if_neg (by simpa using h1), if_neg (by simpa using h2), if_pos h3]
  · intro h1 h2 h3
    simp only [validatePlanRequest]
    rw [if_neg (by simpa using h1), if_neg (by simpa using h2),
      if_neg (by simpa using h3)]

/-- Witness for C7 (amended) at the out-of-range payload built from
`form9`: the modelled validator names the `days` field. -/
theorem c7_witness :
    validatePlanRequest (buildGeneratePayload form9) =
      .validationError daysField :=
  (c7_validation form9 (buildGeneratePayload form9)).2.2.2.1 (by decide)

/-! ### C2 — replacement exclusion -/

/-- `selectBest` only ever returns an element of its candidate list. -/
lemma selectBest_mem (rq : ReplaceRequest) :
    ∀ (l : List Recipe) (r : Recipe), selectBest rq l = some r → r ∈ l := by
  intro l
  induction l with
  | nil => simp [selectBest]
  | cons x xs ih =>
    intro r h
    rw [selectBest] at h
    cases hxs : selectBest rq xs with
    | none =>
      rw [hxs] at h
      simp at h
      simp [h]
    | some b =>
      rw [hxs] at h
      have h' : (if better rq x b then some x else some b) = some r := h
      by_cases hb : better rq x b
      · rw [if_pos hb] at h'
        simp at h'
        simp [h']
      · rw [if_neg hb] at h'
        simp at h'
        subst h'
        exact List.mem_cons_of_mem x (ih b hxs)

/-- A recipe accepted by the constraint filter is not in the request's
exclusion set (rule 4). -/
lemma filterAccept_not_excluded (rq : ReplaceRequest) (r : Recipe) :
    filterAccept rq r = true → r.id ∉ rq.exclude_recipe_ids := by
  intro h hmem
  unfold filterAccept at h
  split_ifs at h

/-- A concrete recipe with identifier 7. -/
def exRecipeA : Recipe :=
  ⟨7, ['o', 'a', 't', 's'], true, false, [['o', 'a', 't', 's']],
    600, 30, 60, 20, 5, 100, 3⟩

/-- A concrete recipe with identifier 8. -/
def exRecipeB : Recipe :=
  ⟨8, ['e', 'g', 'g', 's'], true, false, [['e', 'g', 'g', 's']],
    580, 35, 40, 25, 2, 200, 6⟩

/-- A concrete meal-plan-page request. -/
def exMPReq : MPRequest := ⟨1800, 3, 3, [], [], [], false, false⟩

/-- C2 counterexample: the replace-meal request issued by
`meal-plan/page.tsx` carries no `exclude_recipe_ids` at all — embedded as
the empty identifier list — so it does not contain the currently-assigned
recipe's identifier; the claim over every client replace request is false. -/
theorem c2_counterexample :
    (mealPlanReplacePayload exMPReq 600).exclude_recipe_ids = ([] : List ℤ) :=
  rfl

/-- C2 (amended): replace requests issued by the planner page carry
`exclude_recipe_ids = [current recipe id]` (so the set contains the
current identifier), and the spec-modelled replacement engine never
returns a recipe whose identifier is in the request's exclusion set; the
meal-plan page's requests carry no exclusion identifiers. -/
theorem c2_replacement_exclusion :
    ∀ (f : PlannerForm) (a : ℤ) (m : Meal) (corpus : List Recipe)
      (rq : ReplaceRequest) (r : Recipe),
      (plannerReplacePayload f a m).exclude_recipe_ids = [m.recipe_id]
        ∧ m.recipe_id ∈ (plannerReplacePayload f a m).exclude_recipe_ids
        ∧ (replaceMealModel corpus rq = some r →
            r.id ∉ rq.exclude_recipe_ids) := by
  intro f a m corpus rq r
  refine ⟨rfl, by simp [plannerReplacePayload], ?_⟩
  intro hsel
  have hmem : r ∈ corpus.filter (filterAccept rq) :=
    selectBest_mem rq _ r hsel
  rw [List.mem_filter] at hmem
  exact filterAccept_not_excluded rq r hmem.2

/-- Witness for C2 (amended): on a two-recipe corpus with the current
recipe 7 excluded, the modelled engine picks recipe 8, whose identifier is
not in the exclusion set. -/
theorem c2_witness :
    exRecipeB.id ∉ (plannerReplacePayload exForm 1 exMeal).exclude_recipe_ids :=
  (c2_replacement_exclusion exForm 1 exMeal [exRecipeA, exRecipeB]
    (plannerReplacePayload exForm 1 exMeal) exRecipeB).2.2 (by decide)

/-! ### C6 — replace-meal response contract -/

/-- C6 counterexample: a successful response that carries the new meal
under the key `meal` (the shape the claim states) is not read by the
meal-plan page: its handler looks only at `replacement` and treats the
response as a failure. -/
theorem c6_counterexample :
    mpExtractReplacement
        ⟨true, okStr, none, some exMeal, none, none⟩ = none
      ∧ (⟨true, okStr, none, some exMeal, none, none⟩ :
          MPReplaceResponse).meal = some exMeal := by
  exact ⟨rfl, rfl⟩

/-- C6 (amended): on a successful response the planner page reads the new
meal from the `meal` field and splices it into its plan, while the
meal-plan page reads the `replacement` field. -/
theorem c6_response_fields :
    ∀ (p : Plan) (a : ℤ) (s : Str) (m : Meal) (d : Option Str)
      (j : MPReplaceResponse) (rep : MPReplacement),
      handleReplace p a s ⟨true, okStr, some m, d⟩ = replacePlan p a s m
        ∧ (j.httpOk = true → j.status = okStr →
            mpExtractReplacement j = j.replacement)
        ∧ mpExtractReplacement
            ⟨true, okStr, some rep, none, none, none⟩ = some rep := by
  intro p a s m d j rep
  refine ⟨?_, ?_, rfl⟩
  · simp [handleReplace]
  · intro h1 h2
    simp [mpExtractReplacement, h1, h2]

/-- A concrete replacement object for the meal-plan page. -/
def exRep : MPReplacement :=
  ⟨['e', 'g', 'g', 's'], [⟨2, ['e', 'g', 'g', 's'], ['e', 'g', 'g']⟩],
    ⟨580, 35, 25, 40⟩⟩

/-- Witness for C6 (amended) at a concrete response carrying both fields:
the meal-plan page reads `replacement`. -/
theorem c6_witness :
    mpExtractReplacement
        ⟨true, okStr, some exRep, some exMeal2, none, none⟩ =
      (⟨true, okStr, some exRep, some exMeal2, none, none⟩ :
          MPReplaceResponse).replacement :=
  (c6_response_fields exPlan 1 okStr exMeal2 none
    ⟨true, okStr, some exRep, some exMeal2, none, none⟩ exRep).2.1 rfl rfl

/-! ### C1 — summation invariant of totals -/

/-- Per-field closeness of two totals objects within the rounding tolerance
`0.05`. -/
def within (a b : Totals) : Prop :=
  |a.calories - b.calories| ≤ 1 / 20 ∧ |a.protein_g - b.protein_g| ≤ 1 / 20
    ∧ |a.carbs_g - b.carbs_g| ≤ 1 / 20 ∧ |a.fat_g - b.fat_g| ≤ 1 / 20

instance (a b : Totals) : Decidable (within a b) := by
  unfold within
  infer_instance

/-- Per-field closeness for the meal-plan page's totals shape. -/
def mpWithin (a b : MPTotals) : Prop :=
  |a.calories_kcal - b.calories_kcal| ≤ 1 / 20
    ∧ |a.protein_g - b.protein_g| ≤ 1 / 20
    ∧ |a.fat_g - b.fat_g| ≤ 1 / 20 ∧ |a.carbs_g - b.carbs_g| ≤ 1 / 20

instance (a b : MPTotals) : Decidable (mpWithin a b) := by
  unfold mpWithin
  infer_instance

/-- Rounding to one decimal moves a value by at most `0.05`. -/
lemma abs_round1_sub (x : ℚ) : |round1 x - x| ≤ 1 / 20 := by
  unfold round1
  have h := abs_sub_round (10 * x)
  rw [abs_sub_comm] at h
  have hx : (round (10 * x) : ℚ) / 10 - x = ((round (10 * x) : ℚ) - 10 * x) / 10 := by
    ring
  rw [hx, abs_div]
  rw [show |(10 : ℚ)| = 10 by norm_num]
  linarith

/-- A per-field-rounded totals object is within tolerance of the original. -/
lemma within_round1T (t : Totals) : within (round1T t) t := by
  refine ⟨?_, ?_, ?_, ?_⟩ <;> exact abs_round1_sub _

/-- Exactly equal totals are within tolerance. -/
lemma mpWithin_refl (a : MPTotals) : mpWithin a a := by
  simp [mpWithin]

/-- C1: after a single-meal replacement on either page, every day's totals
are within `0.05` per field of the sum of its meals' totals (assuming the
plan held that invariant before, since untouched days are not recomputed),
and the plan-level totals are within `0.05` per field of the sum of the day
totals (exactly equal on the meal-plan page); both pages recompute by
summation over the meal list. -/
theorem c1_totals_invariant :
    ∀ (p : Plan) (a : ℤ) (s : Str) (m : Meal) (plan : List MPDay) (ad : ℤ)
      (n : ℕ) (rep : MPReplacement),
      ((∀ d ∈ p.days, within d.totals (sumMeals d.meals)) →
        (∀ d ∈ (replacePlan p a s m).days, within d.totals (sumMeals d.meals))
          ∧ within (replacePlan p a s m).overall_totals
              (sumDayTotals (replacePlan p a s m).days))
        ∧ ((∀ d ∈ plan, mpWithin d.day_totals (mpSumMeals d.meals)) →
            (∀ d ∈ (mpReplaceUpdate plan ad n rep).1,
                mpWithin d.day_totals (mpSumMeals d.meals))
              ∧ (mpReplaceUpdate plan ad n rep).2 =
                  mpSumDays (mpReplaceUpdate plan ad n rep).1) := by
  intro p a s m plan ad n rep
  constructor
  · intro hyp
    constructor
    · intro d hd
      rw [show (replacePlan p a s m).days =
          p.days.map
            (fun d => if d.day = a then updateDay s m d else d) from rfl] at hd
      rw [List.mem_map] at hd
      obtain ⟨d0, hd0, hfd⟩ := hd
      by_cases hday : d0.day = a
      · rw [if_pos hday] at hfd
        subst hfd
        exact within_round1T _
      · rw [if_neg hday] at hfd
        subst hfd
        exact hyp d0 hd0
    · exact within_round1T _
  · intro hyp
    constructor
    · intro d hd
      rw [show (mpReplaceUpdate plan ad n rep).1 =
          plan.map (fun d =>
            if d.day = ad then
              ⟨d.day,
                d.meals.map (fun mm =>
                  if mm.meal_number = n then mpMergeMeal mm rep else mm),
                mpSumMeals (d.meals.map (fun mm =>
                  if mm.meal_number = n then mpMergeMeal mm rep else mm))⟩
            else d) from rfl] at hd
      rw [List.mem_map] at hd
      obtain ⟨d0, hd0, hfd⟩ := hd
      by_cases hday : d0.day = ad
      · rw [if_pos hday] at hfd
        subst hfd
        exact mpWithin_refl _
      · rw [if_neg hday] at hfd
        subst hfd
        exact hyp d0 hd0
    · rfl

/-- Witness for C1 at the concrete plan `exPlan` (whose single day's totals
equal its meal sums exactly): the replaced plan's overall totals are within
tolerance of the sum of its day totals. -/
theorem c1_witness :
    within (replacePlan exPlan 1 ['b', 'f'] exMeal2).overall_totals
      (sumDayTotals (replacePlan exPlan 1 ['b', 'f'] exMeal2).days) := by
  have hyp : ∀ d ∈ exPlan.days, within d.totals (sumMeals d.meals) := by
    intro d hd
    simp only [exPlan, exDay, List.mem_singleton] at hd
    subst hd
    refine ⟨?_, ?_, ?_, ?_⟩ <;> norm_num [sumMeals, exMeal]
  exact ((c1_totals_invariant exPlan 1 ['b', 'f'] exMeal2 [] 1 1 exRep).1
    hyp).2

/-! ### C3 — frame property of replacement -/

/-- `handleReplaceMeal` of `meal-plan/page.tsx` as a state transformer: on
a response it cannot read a replacement from, the handler throws before
`setData`, leaving plan and totals untouched. -/
def mpHandleReplace (plan : List MPDay) (tot : MPTotals) (ad : ℤ) (n : ℕ)
    (j : MPReplaceResponse) : List MPDay × MPTotals :=
  match mpExtractReplacement j with
  | none => (plan, tot)
  | some rep => mpReplaceUpdate plan ad n rep

/-- C3: replacement touches only the targeted day and, within it, only the
meals at the targeted slot key (a unique position when the day's slot keys
are distinct); days with another number and meals with another slot are
returned unchanged at their positions, and a failed replace call leaves the
plan unchanged on both pages. -/
theorem c3_frame :
    ∀ (p : Plan) (a : ℤ) (s : Str) (nm : Meal),
      (replacePlan p a s nm).days.length = p.days.length
        ∧ (∀ (i : ℕ) (d : Day), p.days[i]? = some d → d.day ≠ a →
            (replacePlan p a s nm).days[i]? = some d)
        ∧ (∀ (i : ℕ) (d : Day), p.days[i]? = some d → d.day = a →
            (replacePlan p a s nm).days[i]? = some (updateDay s nm d)
              ∧ (updateDay s nm d).meals.length = d.meals.length
              ∧ (∀ (j : ℕ) (mm : Meal), d.meals[j]? = some mm →
                  slotKey mm ≠ s → (updateDay s nm d).meals[j]? = some mm)
              ∧ (∀ (j : ℕ) (mm : Meal), d.meals[j]? = some mm →
                  slotKey mm = s → (updateDay s nm d).meals[j]? = some nm))
        ∧ (∀ d : Day, (d.meals.map slotKey).Nodup →
            ∀ (j k : ℕ) (mj mk : Meal), d.meals[j]? = some mj →
              d.meals[k]? = some mk →
              slotKey mj = s → slotKey mk = s → j = k)
        ∧ (∀ resp : PlannerReplaceResponse,
            ¬(resp.httpOk = true ∧ resp.status = okStr) →
              handleReplace p a s resp = p)
        ∧ (∀ (plan : List MPDay) (tot : MPTotals) (ad : ℤ) (n : ℕ)
            (j : MPReplaceResponse), mpExtractReplacement j = none →
            mpHandleReplace plan tot ad n j = (plan, tot)) := by
  intro p a s nm
  refine ⟨?_, ?_, ?_, ?_, ?_, ?_⟩
  · simp [replacePlan]
  · intro i d hid hne
    show (p.days.map
        (fun d => if d.day = a then updateDay s nm d else d))[i]? = some d
    rw [List.getElem?_map, hid]
    simp [hne]
  · intro i d hid hday
    refine ⟨?_, ?_, ?_, ?_⟩
    · show (p.days.map
          (fun d => if d.day = a then updateDay s nm d else d))[i]? =
        some (updateDay s nm d)
      rw [List.getElem?_map, hid]
      simp [hday]
    · simp [updateDay]
    · intro j mm hj hne
      show (d.meals.map
          (fun m => if slotKey m = s then nm else m))[j]? = some mm
      rw [List.getElem?_map, hj]
      simp [hne]
    · intro j mm hj hs
      show (d.meals.map
          (fun m => if slotKey m = s then nm else m))[j]? = some nm
      rw [List.getElem?_map, hj]
      simp [hs]
  · intro d hnd j k mj mk hj hk hmj hmk
    have hlen : j < d.meals.length := by
      by_contra hge
      rw [List.getElem?_eq_none (by omega)] at hj
      exact Option.noConfusion hj
    have hmapj : (d.meals.map slotKey)[j]? = some s := by
      rw [List.getElem?_map, hj]
      simp [hmj]
    have hmapk : (d.meals.map slotKey)[k]? = some s := by
      rw [List.getElem?_map, hk]
      simp [hmk]
    exact List.getElem?_inj (by simpa using hlen) hnd (hmapj.trans hmapk.symm)
  · intro resp hfail
    simp only [handleReplace]
    rw [if_neg hfail]
  · intro plan tot ad n j hnone
    simp [mpHandleReplace, hnone]

/-- Witness for C3 at the concrete plan `exPlan`: day 1 is not day 2, so a
replacement targeting day 2 leaves day 1 in place. -/
theorem c3_witness :
    (replacePlan exPlan 2 ['b', 'f'] exMeal2).days[0]? = some exDay :=
  (c3_frame exPlan 2 ['b', 'f'] exMeal2).2.1 0 exDay rfl (by decide)

/-! ### Helper lemmas: the occurrence counter -/

/-- Keys (ingredient tokens) of a counter, in order. -/
def keysOf (l : List Item) : List Str := l.map (fun it => it.ingredient)

/-- Count recorded for a key (first matching entry), 0 when absent. -/
def lookupCount : List Item → Str → ℕ
  | [], _ => 0
  | it :: r, k => if it.ingredient = k then it.count else lookupCount r k

/-- Bumping a key increments exactly that key's recorded count. -/
lemma lookupCount_bump_self :
    ∀ (l : List Item) (k : Str),
      lookupCount (bump l k) k = lookupCount l k + 1 := by
  intro l
  induction l with
  | nil => intro k; simp [bump, lookupCount]
  | cons it r ih =>
    intro k
    by_cases hk : it.ingredient = k
    · simp [bump, hk, lookupCount]
    · simp [bump, hk, lookupCount, ih]

/-- Bumping a key leaves every other key's recorded count unchanged. -/
lemma lookupCount_bump_ne :
    ∀ (l : List Item) (k k' : Str), k' ≠ k →
      lookupCount (bump l k) k' = lookupCount l k' := by
  intro l
  induction l with
  | nil =>
    intro k k' hne
    simp [bump, lookupCount, Ne.symm hne]
  | cons it r ih =>
    intro k k' hne
    by_cases hk : it.ingredient = k
    · have h2 : it.ingredient ≠ k' := by
        rw [hk]
        exact Ne.symm hne
      simp [bump, hk, lookupCount, Ne.symm hne, h2]
    · by_cases hk' : it.ingredient = k'
      · simp [bump, hk, lookupCount, hk', hne]
      · simp [bump, hk, lookupCount, hk', hne, ih k k' hne]

/-- Membership in the keys after a bump. -/
lemma mem_keysOf_bump :
    ∀ (l : List Item) (k k' : Str),
      (k' ∈ keysOf (bump l k) ↔ k' ∈ keysOf l ∨ k' = k) := by
  intro l
  induction l with
  | nil => intro k k'; simp [bump, keysOf]
  | cons it r ih =>
    intro k k'
    by_cases hk : it.ingredient = k
    · simp only [bump, if_pos hk, keysOf, List.map_cons, List.mem_cons]
      rw [hk]
      constructor
      · rintro (h | h)
        · exact Or.inr h.symm.symm
        · exact Or.inl (Or.inr h)
      · rintro ((h | h) | h)
        · exact Or.inl h
        · exact Or.inr h
        · exact Or.inl h
    · simp only [bump, if_neg hk, keysOf, List.map_cons, List.mem_cons]
      rw [show List.map (fun it => it.ingredient) (bump r k) =
        keysOf (bump r k) from rfl]
      rw [ih k k']
      constructor
      · rintro (h | h | h)
        · exact Or.inl (Or.inl h)
        · exact Or.inl (Or.inr h)
        · exact Or.inr h
      · rintro ((h | h) | h)
        · exact Or.inl h
        · exact Or.inr (Or.inl h)
        · exact Or.inr (Or.inr h)

/-- A bump preserves key distinctness. -/
lemma nodup_keysOf_bump :
    ∀ (l : List Item) (k : Str),
      (keysOf l).Nodup → (keysOf (bump l k)).Nodup := by
  intro l
  induction l with
  | nil => intro k _; simp [bump, keysOf]
  | cons it r ih =>
    intro k hnd
    simp only [keysOf, List.map_cons, List.nodup_cons] at hnd
    by_cases hk : it.ingredient = k
    · simp only [bump, if_pos hk, keysOf, List.map_cons, List.nodup_cons]
      exact ⟨hk ▸ hnd.1, hnd.2⟩
    · simp only [bump, if_neg hk, keysOf, List.map_cons, List.nodup_cons]
      refine ⟨?_, ih k hnd.2⟩
      rw [show List.map (fun it => it.ingredient) (bump r k) =
        keysOf (bump r k) from rfl]
      rw [mem_keysOf_bump r k it.ingredient]
      rintro (h | h)
      · exact hnd.1 h
      · exact hk h

/-- Folding the counter adds each token's occurrence count on top of the
accumulator's recorded counts. -/
lemma lookupCount_foldl_bump :
    ∀ (ts : List Str) (acc : List Item) (k : Str),
      lookupCount (ts.foldl bump acc) k = lookupCount acc k + ts.count k := by
  intro ts
  induction ts with
  | nil => intro acc k; simp [List.count_nil]
  | cons t ts ih =>
    intro acc k
    rw [List.foldl_cons, ih (bump acc t) k, List.count_cons]
    by_cases hk : t = k
    · subst hk
      rw [lookupCount_bump_self acc t]
      simp
      omega
    · rw [lookupCount_bump_ne acc t k (fun h => hk h.symm)]
      simp [hk]

/-- Keys of the folded counter are the accumulator's keys plus the tokens. -/
lemma mem_keysOf_foldl_bump :
    ∀ (ts : List Str) (acc : List Item) (k : Str),
      (k ∈ keysOf (ts.foldl bump acc) ↔ k ∈ keysOf acc ∨ k ∈ ts) := by
  intro ts
  induction ts with
  | nil => intro acc k; simp
  | cons t ts ih =>
    intro acc k
    rw [List.foldl_cons, ih (bump acc t) k, mem_keysOf_bump acc t k]
    simp only [List.mem_cons]
    tauto

/-- The folded counter keeps keys distinct. -/
lemma nodup_keysOf_foldl_bump :
    ∀ (ts : List Str) (acc : List Item),
      (keysOf acc).Nodup → (keysOf (ts.foldl bump acc)).Nodup := by
  intro ts
  induction ts with
  | nil => intro acc h; simpa using h
  | cons t ts ih =>
    intro acc h
    rw [List.foldl_cons]
    exact ih (bump acc t) (nodup_keysOf_bump acc t h)

/-- The counter's recorded count for any key is that key's occurrence
count among the tokens. -/
lemma counter_lookupCount (ts : List Str) (k : Str) :
    lookupCount (counter ts) k = ts.count k := by
  rw [counter, lookupCount_foldl_bump ts [] k]
  simp [lookupCount]

/-- The counter's keys are exactly the tokens that occur. -/
lemma counter_mem_keys (ts : List Str) (k : Str) :
    k ∈ keysOf (counter ts) ↔ k ∈ ts := by
  rw [counter, mem_keysOf_foldl_bump ts [] k]
  simp [keysOf]

/-- The counter's keys are distinct. -/
lemma counter_nodup (ts : List Str) : (keysOf (counter ts)).Nodup := by
  rw [counter]
  exact nodup_keysOf_foldl_bump ts [] (by simp [keysOf])

/-- In a counter with distinct keys, each entry's count equals the count
recorded for its key. -/
lemma mem_count_eq_lookup :
    ∀ (l : List Item), (keysOf l).Nodup →
      ∀ it ∈ l, it.count = lookupCount l it.ingredient := by
  intro l
  induction l with
  | nil => intro _ it h; simp at h
  | cons x r ih =>
    intro hnd it hit
    simp only [keysOf, List.map_cons, List.nodup_cons] at hnd
    rcases List.mem_cons.mp hit with h | h
    · subst h
      simp [lookupCount]
    · have hne : x.ingredient ≠ it.ingredient := by
        intro he
        exact hnd.1 (he ▸ List.mem_map_of_mem (fun i => i.ingredient) h)
      rw [lookupCount, if_neg hne]
      exact ih hnd.2 it h

/-- Every counter entry records its token's occurrence count. -/
lemma counter_item_count (ts : List Str) :
    ∀ it ∈ counter ts, it.count = ts.count it.ingredient := by
  intro it hit
  rw [mem_count_eq_lookup (counter ts) (counter_nodup ts) it hit]
  exact counter_lookupCount ts it.ingredient

/-! ### Helper lemmas: the stable descending sort -/

/-- Insertion produces a permutation. -/
lemma insertDesc_perm (x : Item) :
    ∀ (l : List Item), (insertDesc x l).Perm (x :: l) := by
  intro l
  induction l with
  | nil => simp [insertDesc]
  | cons y ys ih =>
    rw [insertDesc]
    by_cases hc : y.count ≤ x.count
    · rw [if_pos hc]
    · rw [if_neg hc]
      exact (ih.cons y).trans (List.Perm.swap x y ys)

/-- The sort is a permutation of its input. -/
lemma sortItems_perm : ∀ (l : List Item), (sortItems l).Perm l := by
  intro l
  induction l with
  | nil => simp [sortItems]
  | cons x xs ih =>
    rw [sortItems, List.foldr_cons]
    have h1 : (insertDesc x (List.foldr insertDesc [] xs)).Perm
        (x :: List.foldr insertDesc [] xs) := insertDesc_perm x _
    have h2 : (x :: List.foldr insertDesc [] xs).Perm (x :: xs) :=
      List.Perm.cons x ih
    exact h1.trans h2

/-- Insertion preserves the descending-count pairwise order. -/
lemma insertDesc_pairwise (x : Item) :
    ∀ (l : List Item),
      l.Pairwise (fun a b => b.count ≤ a.count) →
      (insertDesc x l).Pairwise (fun a b => b.count ≤ a.count) := by
  intro l
  induction l with
  | nil => intro _; simp [insertDesc]
  | cons y ys ih =>
    intro hp
    rw [List.pairwise_cons] at hp
    rw [insertDesc]
    by_cases hc : y.count ≤ x.count
    · rw [if_pos hc]
      rw [List.pairwise_cons]
      constructor
      · intro z hz
        rcases List.mem_cons.mp hz with h | h
        · rw [h]
          exact hc
        · exact le_trans (hp.1 z h) hc
      · rw [List.pairwise_cons]
        exact hp
    · rw [if_neg hc]
      rw [List.pairwise_cons]
      constructor
      · intro z hz
        rcases List.mem_cons.mp ((insertDesc_perm x ys).mem_iff.mp hz)
          with h | h
        · rw [h]
          exact le_of_lt (not_le.mp hc)
        · exact hp.1 z h
      · exact ih hp.2

/-- The sort's output is pairwise descending by count. -/
lemma sortItems_pairwise :
    ∀ (l : List Item),
      (sortItems l).Pairwise (fun a b => b.count ≤ a.count) := by
  intro l
  induction l with
  | nil => simp [sortItems]
  | cons x xs ih =>
    rw [sortItems, List.foldr_cons]
    exact insertDesc_pairwise x _ ih

/-- Filtering by one count value commutes with inserting: the inserted
element lands in front of the equal-count block, never inside it. -/
lemma filter_insertDesc (c : ℕ) (x : Item) :
    ∀ (l : List Item),
      (insertDesc x l).filter (fun it => it.count == c) =
        if x.count = c then
          x :: l.filter (fun it => it.count == c)
        else l.filter (fun it => it.count == c) := by
  intro l
  induction l with
  | nil =>
    rw [insertDesc]
    by_cases hx : x.count = c
    · simp [hx]
    · simp [hx]
  | cons y ys ih =>
    rw [insertDesc]
    by_cases hc : y.count ≤ x.count
    · rw [if_pos hc]
      by_cases hx : x.count = c
      · simp [List.filter_cons, hx]
      · simp [List.filter_cons, hx]
    · rw [if_neg hc]
      simp only [List.filter_cons]
      rw [ih]
      by_cases hy : y.count = c
      · have hx : x.count ≠ c := by
          intro hxc
          exact hc (le_of_eq (hy.trans hxc.symm))
        simp [hy, hx]
      · by_cases hx : x.count = c
        · simp [hx, hy]
        · simp [hx, hy]

/-- Stability: for each count value, the sorted list lists that count's
items in exactly their original (first-occurrence) order. -/
lemma sortItems_filter (c : ℕ) :
    ∀ (l : List Item),
      (sortItems l).filter (fun it => it.count == c) =
        l.filter (fun it => it.count == c) := by
  intro l
  induction l with
  | nil => simp [sortItems]
  | cons x xs ih =>
    rw [sortItems, List.foldr_cons,
      show List.foldr insertDesc [] xs = sortItems xs from rfl,
      filter_insertDesc c x (sortItems xs), List.filter_cons]
    by_cases hx : x.count = c
    · simp [hx, ih]
    · simp [hx, ih]

/-! ### Helper lemmas: plan tokens -/

/-- All ingredient strings of a day list, in traversal order. -/
def allIngredients (ds : List Day) : List Str :=
  ds.flatMap (fun d => d.meals.flatMap (fun m => m.ingredients))

/-- Tokens of a meal list, rewritten as filter-after-map over the raw
ingredient strings. -/
lemma flatMap_mealTokens (ms : List Meal) :
    ms.flatMap mealTokens =
      ((ms.flatMap (fun m => m.ingredients)).map
        (fun i => toLower (trim i))).filter (fun t => !t.isEmpty) := by
  induction ms with
  | nil => simp
  | cons m ms ih =>
    rw [List.flatMap_cons, List.flatMap_cons, List.map_append,
      List.filter_append, ih]
    rfl

/-- The plan's token list is the filtered map over all raw ingredient
strings of the plan. -/
lemma planTokens_eq (ds : List Day) :
    planTokens ds =
      ((allIngredients ds).map (fun i => toLower (trim i))).filter
        (fun t => !t.isEmpty) := by
  unfold planTokens allIngredients
  induction ds with
  | nil => simp
  | cons d ds ih =>
    rw [List.flatMap_cons, List.flatMap_cons, List.map_append,
      List.filter_append, ih, dayTokens, flatMap_mealTokens]

/-- Every plan token is nonempty. -/
lemma planTokens_ne_nil (ds : List Day) :
    ∀ t ∈ planTokens ds, t ≠ [] := by
  intro t ht
  rw [planTokens_eq, List.mem_filter] at ht
  intro hnil
  rw [hnil] at ht
  simp at ht

/-! ### C4 — shopping-list construction -/

/-- A day whose single meal lists ingredients `"b"` then `"a"`: two tied
tokens in non-alphabetical first-occurrence order. -/
def exDayBA : Day :=
  ⟨1, [⟨some ['m'], ['m'], 1, ['x'], 100, 1, 1, 1, [['b'], ['a']], 100⟩],
    ⟨100, 1, 1, 1⟩⟩

/-- C4 counterexample: with tied counts the client's sort keeps first
occurrence order (`"b"` before `"a"`), not ascending alphabetical order
(`"a"` before `"b"`) — the comparator `(a, b) => b[1] - a[1]` compares
counts only. -/
theorem c4_counterexample :
    shoppingItems [exDayBA] = [⟨['b'], 1⟩, ⟨['a'], 1⟩]
      ∧ (['a'] : Str) < ['b']
      ∧ shoppingItems [exDayBA] ≠ [⟨['a'], 1⟩, ⟨['b'], 1⟩] := by
  refine ⟨by decide, by decide, by decide⟩

/-- C4 (amended): the shopping list is built from the lower-cased trimmed
nonempty ingredient tokens of the whole plan; its items are a permutation
of the occurrence counter, each item carrying its token's occurrence count
and a nonempty token; items are sorted by descending count, and ties are
kept in first-occurrence (counter insertion) order — not re-ordered
alphabetically. -/
theorem c4_shopping_list_construction :
    ∀ ds : List Day,
      planTokens ds =
          ((allIngredients ds).map (fun i => toLower (trim i))).filter
            (fun t => !t.isEmpty)
        ∧ (shoppingItems ds).Perm (counter (planTokens ds))
        ∧ (∀ it ∈ shoppingItems ds,
            it.count = (planTokens ds).count it.ingredient
              ∧ it.ingredient ≠ [])
        ∧ (∀ k : Str, k ∈ keysOf (shoppingItems ds) ↔ k ∈ planTokens ds)
        ∧ (shoppingItems ds).Pairwise (fun a b => b.count ≤ a.count)
        ∧ (∀ c : ℕ,
            (shoppingItems ds).filter (fun it => it.count == c) =
              (counter (planTokens ds)).filter (fun it => it.count == c)) := by
  intro ds
  refine ⟨planTokens_eq ds, sortItems_perm _, ?_, ?_, sortItems_pairwise _,
    fun c => sortItems_filter c _⟩
  · intro it hit
    have hit' : it ∈ counter (planTokens ds) :=
      (sortItems_perm _).subset hit
    refine ⟨counter_item_count _ it hit', ?_⟩
    have hkey : it.ingredient ∈ keysOf (counter (planTokens ds)) :=
      List.mem_map_of_mem (fun i => i.ingredient) hit'
    exact planTokens_ne_nil ds it.ingredient ((counter_mem_keys _ _).mp hkey)
  · intro k
    have hp : ((sortItems (counter (planTokens ds))).map
          (fun i => i.ingredient)).Perm
        ((counter (planTokens ds)).map (fun i => i.ingredient)) :=
      (sortItems_perm _).map (fun i => i.ingredient)
    show k ∈ (sortItems (counter (planTokens ds))).map
        (fun i => i.ingredient) ↔ k ∈ planTokens ds
    rw [hp.mem_iff]
    exact counter_mem_keys _ k

/-- Witness for C4 (amended) at the concrete day list `[exDayBA]` and the
item for token `"b"`. -/
theorem c4_witness :
    (⟨['b'], 1⟩ : Item).count = (planTokens [exDayBA]).count ['b']
      ∧ (⟨['b'], 1⟩ : Item).ingredient ≠ [] :=
  (c4_shopping_list_construction [exDayBA]).2.2.1 ⟨['b'], 1⟩ (by decide)

/-! ### C5 — shopping-list cardinality -/

/-- C5: `total_unique` equals the number of distinct nonempty lower-cased
trimmed ingredient tokens across all meals of the plan. -/
theorem c5_total_unique :
    ∀ ds : List Day,
      (shoppingList ds).total_unique =
        (((allIngredients ds).map (fun i => toLower (trim i))).filter
          (fun t => !t.isEmpty)).dedup.length := by
  intro ds
  rw [← planTokens_eq]
  show (sortItems (counter (planTokens ds))).length =
    (planTokens ds).dedup.length
  rw [(sortItems_perm _).length_eq]
  have hkl : (counter (planTokens ds)).length =
      (keysOf (counter (planTokens ds))).length := by
    simp [keysOf]
  rw [hkl]
  have hperm : (keysOf (counter (planTokens ds))).Perm
      ((planTokens ds).dedup) := by
    rw [List.perm_ext_iff_of_nodup (counter_nodup _) (List.nodup_dedup _)]
    intro a
    rw [counter_mem_keys, List.mem_dedup]
  exact hperm.length_eq

end SMP
